import Mathlib

/-!
Shallow embedding of the tap-plugin-prefetch decoder (src/src/lib.rs).

The byte source is a `List Nat` of bytes together with an explicit read
position; every read is bounds-checked and a short read yields the
`truncated` error, mirroring `read_exact` / `ReadBytesExt` failing with
`UnexpectedEof` on the Rust side.  Absolute and relative seeks simply move
the position (seeking past the end succeeds, as with `Seek` on a file, and
the following read fails).

The UTF-16 string readers (`read_utf16_exact`, `read_sized_utf16`,
`read_utf16_list`) and the Windows-timestamp conversion come from the
external `tap` crate and are not part of this repository's sources; they
are modelled from the specification's description of the String-Table
Reader and of the timestamp conversion.
-/

/-- Error kinds of the decoder, following the specification's taxonomy.
`unknownVersion` stands for the header decoder's version-mismatch error
(Rust message "Can't match Prefetch version") and `unsupportedVersion`
for the assembler's rejection of the recognized Windows-10 layout
(Rust message "Unsupported prefetch version"). -/
inductive PError where
  | unknownVersion
  | unsupportedVersion
  | malformedSignature
  | truncated
  | invalidTimestamp
  | invalidStringEncoding
  deriving DecidableEq, Repr

/-- A UTC instant, represented by its count of 100ns ticks since
1601-01-01 (the raw Windows epoch value it was decoded from); stands for
chrono's `DateTime<Utc>`. -/
structure DateTimeUtc where
  ticks : Nat
  deriving DecidableEq, Repr

/-- Modelled from the spec: the representable range of the timestamp
conversion.  A Windows epoch value is convertible when its nanosecond
count fits a signed 64-bit integer (values beyond that are out of the
representable instant range). -/
def windowsTicksMax : Nat := 92233720368547758

/-- Modelled from the spec: `WindowsTimestamp::to_datetime` of the external
tap crate converts a 64-bit Windows epoch value (100ns ticks since
1601-01-01 UTC) to a UTC instant and fails with `InvalidTimestamp` when
the value is out of the representable range; it never clamps. -/
def WindowsTimestamp.to_datetime (t : Nat) : Except PError DateTimeUtc :=
  if t ≤ windowsTicksMax then .ok ⟨t⟩ else .error .invalidTimestamp

/-- Read exactly `n` bytes at position `pos`; a short read is `truncated`. -/
def readBytes (data : List Nat) (pos n : Nat) : Except PError (List Nat × Nat) :=
  if pos + n ≤ data.length then .ok ((data.drop pos).take n, pos + n)
  else .error .truncated

/-- Little-endian byte-list to natural number. -/
def bytesToNatLE : List Nat → Nat
  | [] => 0
  | b :: rest => b % 256 + 256 * bytesToNatLE rest

/-- `read_u16::<LittleEndian>`. -/
def readU16 (data : List Nat) (pos : Nat) : Except PError (Nat × Nat) := do
  let (bs, p) ← readBytes data pos 2
  .ok (bytesToNatLE bs, p)

/-- `read_u32::<LittleEndian>`. -/
def readU32 (data : List Nat) (pos : Nat) : Except PError (Nat × Nat) := do
  let (bs, p) ← readBytes data pos 4
  .ok (bytesToNatLE bs, p)

/-- `read_u64::<LittleEndian>`. -/
def readU64 (data : List Nat) (pos : Nat) : Except PError (Nat × Nat) := do
  let (bs, p) ← readBytes data pos 8
  .ok (bytesToNatLE bs, p)

/-- Pure little-endian 32-bit extraction at byte offset `i`. -/
def u32At (data : List Nat) (i : Nat) : Nat := bytesToNatLE ((data.drop i).take 4)

/-- Pure little-endian 64-bit extraction at byte offset `i`. -/
def u64At (data : List Nat) (i : Nat) : Nat := bytesToNatLE ((data.drop i).take 8)

/-- Pair a byte list into little-endian 16-bit code units; an odd trailing
byte is a truncated code unit. -/
def toU16LE : List Nat → Option (List Nat)
  | [] => some []
  | [_] => none
  | a :: b :: rest =>
    match toU16LE rest with
    | some us => some ((a % 256 + 256 * (b % 256)) :: us)
    | none => none

/-- Decode a list of UTF-16 code units to characters; fails on an unpaired
surrogate. -/
def decodeUtf16 : List Nat → Option (List Char)
  | [] => some []
  | u :: rest =>
    if u < 0xD800 ∨ 0xDFFF < u then
      match decodeUtf16 rest with
      | some cs => some (Char.ofNat u :: cs)
      | none => none
    else if u ≤ 0xDBFF then
      match rest with
      | [] => none
      | v :: rest2 =>
        if 0xDC00 ≤ v ∧ v ≤ 0xDFFF then
          match decodeUtf16 rest2 with
          | some cs => some (Char.ofNat (0x10000 + (u - 0xD800) * 0x400 + (v - 0xDC00)) :: cs)
          | none => none
        else none
    else none

/-- Is `b` a UTF-8 continuation byte? -/
def utf8Cont (b : Nat) : Bool := 0x80 ≤ b && b < 0xC0

/-- Decode a UTF-8 byte list to characters, with the validation rules of
`std::str::from_utf8`: continuation bytes in range, no overlong forms, no
surrogate code points, nothing above U+10FFFF. -/
def decodeUtf8 : List Nat → Option (List Char)
  | [] => some []
  | b :: rest =>
    if b < 0x80 then
      match decodeUtf8 rest with
      | some cs => some (Char.ofNat b :: cs)
      | none => none
    else if b < 0xC2 then none
    else if b < 0xE0 then
      match rest with
      | [] => none
      | c :: rest2 =>
        if utf8Cont c then
          match decodeUtf8 rest2 with
          | some cs => some (Char.ofNat ((b - 0xC0) * 0x40 + (c - 0x80)) :: cs)
          | none => none
        else none
    else if b < 0xF0 then
      match rest with
      | c :: d :: rest2 =>
        if utf8Cont c && utf8Cont d then
          if (b - 0xE0) * 0x1000 + (c - 0x80) * 0x40 + (d - 0x80) < 0x800 ∨
             (0xD800 ≤ (b - 0xE0) * 0x1000 + (c - 0x80) * 0x40 + (d - 0x80) ∧
              (b - 0xE0) * 0x1000 + (c - 0x80) * 0x40 + (d - 0x80) ≤ 0xDFFF) then none
          else
            match decodeUtf8 rest2 with
            | some cs =>
              some (Char.ofNat ((b - 0xE0) * 0x1000 + (c - 0x80) * 0x40 + (d - 0x80)) :: cs)
            | none => none
        else none
      | _ => none
    else if b < 0xF5 then
      match rest with
      | c :: d :: e :: rest2 =>
        if utf8Cont c && utf8Cont d && utf8Cont e then
          if (b - 0xF0) * 0x40000 + (c - 0x80) * 0x1000 + (d - 0x80) * 0x40 + (e - 0x80) < 0x10000 ∨
             0x10FFFF < (b - 0xF0) * 0x40000 + (c - 0x80) * 0x1000 + (d - 0x80) * 0x40 + (e - 0x80)
          then none
          else
            match decodeUtf8 rest2 with
            | some cs =>
              some (Char.ofNat
                ((b - 0xF0) * 0x40000 + (c - 0x80) * 0x1000 + (d - 0x80) * 0x40 + (e - 0x80)) :: cs)
            | none => none
        else none
      | _ => none
    else none

/-- Modelled from the spec: `read_utf16_exact` of the external tap crate
(String-Table Reader, fixed-length mode): read exactly `n` bytes, decode
UTF-16LE, truncate at the first null code unit. -/
def read_utf16_exact (data : List Nat) (pos n : Nat) : Except PError (String × Nat) := do
  let (bs, p) ← readBytes data pos n
  match toU16LE bs with
  | none => .error .invalidStringEncoding
  | some us =>
    match decodeUtf16 (us.takeWhile (fun u => u != 0)) with
    | none => .error .invalidStringEncoding
    | some cs => .ok (String.mk cs, p)

/-- Modelled from the spec: `read_sized_utf16` of the external tap crate
(String-Table Reader, length-prefixed mode): read a 2-byte little-endian
code-unit count, then that many UTF-16 units, and decode them. -/
def read_sized_utf16 (data : List Nat) (pos : Nat) : Except PError (String × Nat) := do
  let (count, p1) ← readU16 data pos
  let (bs, p2) ← readBytes data p1 (2 * count)
  match toU16LE bs with
  | none => .error .invalidStringEncoding
  | some us =>
    match decodeUtf16 us with
    | none => .error .invalidStringEncoding
    | some cs => .ok (String.mk cs, p2)

/-- Split a code-unit list into the null-terminated runs it consists of. -/
def splitUnitsAux : List Nat → List Nat → List (List Nat)
  | [], [] => []
  | [], acc => [acc.reverse]
  | u :: rest, acc =>
    if u = 0 then acc.reverse :: splitUnitsAux rest []
    else splitUnitsAux rest (u :: acc)

/-- Decode every code-unit run of a list. -/
def decodeUtf16List : List (List Nat) → Option (List String)
  | [] => some []
  | us :: rest =>
    match decodeUtf16 us, decodeUtf16List rest with
    | some cs, some ss => some (String.mk cs :: ss)
    | _, _ => none

/-- Modelled from the spec: `read_utf16_list` of the external tap crate
(String-Table Reader, bounded-list mode): given a byte-span size, read the
span and decode the null-terminated UTF-16 strings that fill it, in order;
a span that ends before completing is `truncated`. -/
def read_utf16_list (data : List Nat) (pos size : Nat) :
    Except PError (List String × Nat) := do
  let (bs, p) ← readBytes data pos size
  match toU16LE bs with
  | none => .error .invalidStringEncoding
  | some us =>
    match decodeUtf16List (splitUnitsAux us []) with
    | none => .error .invalidStringEncoding
    | some ss => .ok (ss, p)

/-- The prefetch version tag (`PrefetchVersion` in lib.rs). -/
inductive PrefetchVersion where
  | WindowsXP
  | WindowsVista
  | Windows8
  | Windows10
  deriving DecidableEq, Repr

/-- The version-code table of `PrefetchHeader::from_reader`:
0x11 is XP, 0x17 is Vista, 0x1a is Windows 8, 0x30 is Windows 10, anything
else is unrecognized. -/
def versionOfCode (c : Nat) : Option PrefetchVersion :=
  if c = 0x11 then some .WindowsXP
  else if c = 0x17 then some .WindowsVista
  else if c = 0x1a then some .Windows8
  else if c = 0x30 then some .Windows10
  else none

/-- `PrefetchHeader` of lib.rs. -/
structure PrefetchHeader where
  version : PrefetchVersion
  signature : String
  file_size : Nat
  file_name : String
  hash : Nat
  first_file_path_offset : Nat
  first_file_path_size : Nat
  volume_information_offset : Nat
  deriving DecidableEq, Repr

/-- `PrefetchHeader::from_reader`: 4-byte version code matched against the
table (unrecognized codes error out), 4 signature bytes decoded as UTF-8
(a decoding failure is the malformed-signature error), a 4-byte relative
seek over the reserved field, the 4-byte file size, a 60-byte fixed UTF-16
executable-name field, the 4-byte hash, then an absolute seek to 0x64 and
the three offset/size fields. -/
def PrefetchHeader.from_reader (data : List Nat) (pos : Nat) :
    Except PError (PrefetchHeader × Nat) := do
  let (code, p1) ← readU32 data pos
  match versionOfCode code with
  | none => .error .unknownVersion
  | some version => do
    let (sig, p2) ← readBytes data p1 4
    match decodeUtf8 sig with
    | none => .error .malformedSignature
    | some sigChars => do
      let (file_size, p4) ← readU32 data (p2 + 4)
      let (file_name, p5) ← read_utf16_exact data p4 60
      let (hash, _p6) ← readU32 data p5
      let (first_file_path_offset, p7) ← readU32 data 0x64
      let (first_file_path_size, p8) ← readU32 data p7
      let (volume_information_offset, p9) ← readU32 data p8
      .ok ({ version, signature := String.mk sigChars, file_size, file_name, hash,
             first_file_path_offset, first_file_path_size,
             volume_information_offset }, p9)

/-- `FileInformation` of lib.rs. -/
structure FileInformation where
  last_execution_time : DateTimeUtc
  number_of_execution : Nat
  deriving DecidableEq, Repr

/-- `FileInformation::vista_from_reader`: absolute seek to 0x80 for the
8-byte timestamp, absolute seek to 0x98 for the 4-byte run count. -/
def FileInformation.vista_from_reader (data : List Nat) (_pos : Nat) :
    Except PError (FileInformation × Nat) := do
  let (t, _) ← readU64 data 0x80
  let last_execution_time ← WindowsTimestamp.to_datetime t
  let (number_of_execution, p) ← readU32 data 0x98
  .ok ({ last_execution_time, number_of_execution }, p)

/-- `FileInformation::xp_from_reader`: absolute seek to 0x78 for the
8-byte timestamp, absolute seek to 0x90 for the 4-byte run count. -/
def FileInformation.xp_from_reader (data : List Nat) (_pos : Nat) :
    Except PError (FileInformation × Nat) := do
  let (t, _) ← readU64 data 0x78
  let last_execution_time ← WindowsTimestamp.to_datetime t
  let (number_of_execution, p) ← readU32 data 0x90
  .ok ({ last_execution_time, number_of_execution }, p)

/-- `FileInformation::w8_from_reader`: absolute seek to 0x80 for the
8-byte timestamp, absolute seek to 0xD0 for the 4-byte run count. -/
def FileInformation.w8_from_reader (data : List Nat) (_pos : Nat) :
    Except PError (FileInformation × Nat) := do
  let (t, _) ← readU64 data 0x80
  let last_execution_time ← WindowsTimestamp.to_datetime t
  let (number_of_execution, p) ← readU32 data 0xD0
  .ok ({ last_execution_time, number_of_execution }, p)

/-- The version dispatch of `Prefetch::from_file` (the `match` over
`prefetch_header.version`): Vista, XP and Windows 8 select their reader;
the remaining case (Windows 10, whose payload is LZXPRESS-compressed) is
rejected with the unsupported-version error. -/
def FileInformation.for_version (v : PrefetchVersion) (data : List Nat) (pos : Nat) :
    Except PError (FileInformation × Nat) :=
  match v with
  | .WindowsVista => FileInformation.vista_from_reader data pos
  | .WindowsXP => FileInformation.xp_from_reader data pos
  | .Windows8 => FileInformation.w8_from_reader data pos
  | .Windows10 => .error .unsupportedVersion

/-- `VolumeInformation` of lib.rs. -/
structure VolumeInformation where
  volume_path_offset : Nat
  volume_path_size : Nat
  volume_creation_date : DateTimeUtc
  volume_serial_number : Nat
  blob1_offset : Nat
  blob1_size : Nat
  folder_path_offset : Nat
  folder_path_count : Nat
  deriving DecidableEq, Repr

/-- `VolumeInformation::from_reader`: sequential little-endian fields from
the current position: volume-path offset, volume-path size, 8-byte
creation timestamp (converted like the execution timestamp), serial
number, blob offset, blob size, folder-path offset, folder-path count. -/
def VolumeInformation.from_reader (data : List Nat) (pos : Nat) :
    Except PError (VolumeInformation × Nat) := do
  let (volume_path_offset, p1) ← readU32 data pos
  let (volume_path_size, p2) ← readU32 data p1
  let (craw, p3) ← readU64 data p2
  let volume_creation_date ← WindowsTimestamp.to_datetime craw
  let (volume_serial_number, p4) ← readU32 data p3
  let (blob1_offset, p5) ← readU32 data p4
  let (blob1_size, p6) ← readU32 data p5
  let (folder_path_offset, p7) ← readU32 data p6
  let (folder_path_count, p8) ← readU32 data p7
  .ok ({ volume_path_offset, volume_path_size, volume_creation_date,
         volume_serial_number, blob1_offset, blob1_size,
         folder_path_offset, folder_path_count }, p8)

/-- The folder-path loop of `Prefetch::from_file`
(`for _ in 0..volume_information.folder_path_count`): read `n`
length-prefixed UTF-16 strings in sequence. -/
def readVolumes (data : List Nat) (pos : Nat) : Nat → Except PError (List String × Nat)
  | 0 => .ok ([], pos)
  | n + 1 => do
    let (s, p) ← read_sized_utf16 data pos
    let (rest, p2) ← readVolumes data p n
    .ok (s :: rest, p2)

/-- `Prefetch` of lib.rs (the `Arc` wrappers around the sub-records are
ownership plumbing for the host framework and are dropped). -/
structure Prefetch where
  header : PrefetchHeader
  file_information : FileInformation
  volume_information : VolumeInformation
  files : List String
  volumes : List String
  deriving DecidableEq, Repr

/-- `Prefetch::from_file`: header, version-dispatched execution info, seek
to `volume_information_offset` for the volume record, seek to
`first_file_path_offset` for the bounded file list, then seek to
`volume_information_offset + folder_path_offset` and read
`folder_path_count` length-prefixed folder paths.  The folder-path
position is computed by a `u32 + u32` addition in the source, which wraps
modulo 2^32 in a release build; the sum is therefore taken mod 2^32
here. -/
def Prefetch.from_file (data : List Nat) : Except PError Prefetch := do
  let (prefetch_header, p) ← PrefetchHeader.from_reader data 0
  let (file_information, _p2) ←
    FileInformation.for_version prefetch_header.version data p
  let (volume_information, _p3) ←
    VolumeInformation.from_reader data prefetch_header.volume_information_offset
  let (files, _p4) ←
    read_utf16_list data prefetch_header.first_file_path_offset
      prefetch_header.first_file_path_size
  let (volumes, _p5) ←
    readVolumes data
      ((prefetch_header.volume_information_offset +
        volume_information.folder_path_offset) % 4294967296)
      volume_information.folder_path_count
  .ok { header := prefetch_header, file_information, volume_information, files, volumes }

/-! Concrete buffers for the testable properties. -/

/-- The crafted XP buffer of the specification's test vector: version 0x11,
signature "SCCA", file size 1000, executable name "TEST.EXE" padded with
nulls to 60 bytes, hash 0xDEADBEEF, first-file-path offset 200 / size 36
locating the two-entry null-terminated list, volume-information offset 240
locating a volume record with serial number 0x12345678, folder-path offset
36 (relative) and folder-path count 1 locating the one length-prefixed
folder path at absolute offset 276. -/
def pfBuf : List Nat := [
  17, 0, 0, 0, 83, 67, 67, 65, 0, 0, 0, 0, 232, 3, 0, 0, 84, 0, 69, 0, 83, 0, 84, 0, 46, 0, 69, 0,
  88, 0, 69, 0, 0, 0, 0, 0, 0, 0, 0, 0, 0, 0, 0, 0, 0, 0, 0, 0, 0, 0, 0, 0, 0, 0, 0, 0, 0, 0, 0, 0,
  0, 0, 0, 0, 0, 0, 0, 0, 0, 0, 0, 0, 0, 0, 0, 0, 239, 190, 173, 222, 0, 0, 0, 0, 0, 0, 0, 0, 0, 0,
  0, 0, 0, 0, 0, 0, 0, 0, 0, 0, 200, 0, 0, 0, 36, 0, 0, 0, 240, 0, 0, 0, 0, 0, 0, 0, 0, 0, 0, 0,
  128, 0, 0, 0, 0, 0, 0, 0, 0, 0, 0, 0, 0, 0, 0, 0, 0, 0, 0, 0, 0, 0, 0, 0, 5, 0, 0, 0, 0, 0, 0, 0,
  0, 0, 0, 0, 0, 0, 0, 0, 0, 0, 0, 0, 0, 0, 0, 0, 0, 0, 0, 0, 0, 0, 0, 0, 0, 0, 0, 0, 0, 0, 0, 0, 0,
  0, 0, 0, 0, 0, 0, 0, 0, 0, 0, 0, 0, 0, 0, 0, 92, 0, 67, 0, 92, 0, 97, 0, 46, 0, 100, 0, 108, 0,
  108, 0, 0, 0, 92, 0, 67, 0, 92, 0, 98, 0, 46, 0, 100, 0, 108, 0, 108, 0, 0, 0, 0, 0, 0, 0, 0, 0,
  0, 0, 0, 0, 0, 0, 0, 0, 0, 0, 0, 0, 0, 0, 120, 86, 52, 18, 0, 0, 0, 0, 0, 0, 0, 0, 36, 0, 0, 0, 1,
  0, 0, 0, 23, 0, 92, 0, 68, 0, 101, 0, 118, 0, 105, 0, 99, 0, 101, 0, 92, 0, 72, 0, 97, 0, 114, 0,
  100, 0, 100, 0, 105, 0, 115, 0, 107, 0, 86, 0, 111, 0, 108, 0, 117, 0, 109, 0, 101, 0, 49, 0
]

/-- The header the crafted buffer decodes to. -/
def hdrExpected : PrefetchHeader :=
  { version := .WindowsXP, signature := "SCCA", file_size := 1000,
    file_name := "TEST.EXE", hash := 0xDEADBEEF,
    first_file_path_offset := 200, first_file_path_size := 36,
    volume_information_offset := 240 }

/-- The full record the crafted buffer decodes to. -/
def pfExpected : Prefetch :=
  { header := hdrExpected,
    file_information := { last_execution_time := ⟨128⟩, number_of_execution := 5 },
    volume_information :=
      { volume_path_offset := 0, volume_path_size := 0,
        volume_creation_date := ⟨0⟩, volume_serial_number := 0x12345678,
        blob1_offset := 0, blob1_size := 0,
        folder_path_offset := 36, folder_path_count := 1 },
    files := ["\\C\\a.dll", "\\C\\b.dll"],
    volumes := ["\\Device\\HarddiskVolume1"] }

/-- The crafted buffer with its version code replaced by 0x30 (Win10). -/
def pfBuf30 : List Nat := 48 :: pfBuf.tail

/-- The header `pfBuf30` decodes to: same fields, Windows-10 tag. -/
def hdr30 : PrefetchHeader := { hdrExpected with version := .Windows10 }

/-- The crafted buffer with its signature bytes replaced by "ABCD". -/
def pfBufSigABCD : List Nat := pfBuf.take 4 ++ [65, 66, 67, 68] ++ pfBuf.drop 8

/-- The header `pfBufSigABCD` decodes to. -/
def hdrABCD : PrefetchHeader := { hdrExpected with signature := "ABCD" }

/-- The crafted buffer with its signature bytes replaced by invalid UTF-8. -/
def pfBufBadSig : List Nat := pfBuf.take 4 ++ [255, 255, 255, 255] ++ pfBuf.drop 8

/-! Helper lemmas about the byte-source operations. -/

theorem ok_bind {α β : Type} (a : α) (f : α → Except PError β) :
    (Except.ok a >>= f) = f a := rfl

theorem err_bind {α β : Type} (e : PError) (f : α → Except PError β) :
    ((Except.error e : Except PError α) >>= f) = Except.error e := rfl

theorem readBytes_ok_elim {data : List Nat} {pos n : Nat} {bs : List Nat} {p : Nat}
    (h : readBytes data pos n = .ok (bs, p)) :
    p = pos + n ∧ pos + n ≤ data.length ∧ bs = (data.drop pos).take n := by
  unfold readBytes at h
  split at h
  · injection h with h'
    injection h' with h1 h2
    exact ⟨h2.symm, by assumption, h1.symm⟩
  · cases h

theorem readBytes_error_elim {data : List Nat} {pos n : Nat} {e : PError}
    (h : readBytes data pos n = .error e) : e = .truncated := by
  unfold readBytes at h
  split at h
  · cases h
  · injection h with h'
    exact h'.symm

theorem readBytes_ok_of_le {data : List Nat} {pos n : Nat} (h : pos + n ≤ data.length) :
    readBytes data pos n = .ok ((data.drop pos).take n, pos + n) := by
  unfold readBytes
  rw [if_pos h]

theorem readU16_ok_elim {data : List Nat} {pos c p : Nat}
    (h : readU16 data pos = .ok (c, p)) :
    p = pos + 2 ∧ pos + 2 ≤ data.length := by
  unfold readU16 at h
  cases hb : readBytes data pos 2 with
  | ok a =>
    obtain ⟨bs, p'⟩ := a
    rw [hb, ok_bind] at h
    injection h with h'
    injection h' with h1 h2
    obtain ⟨hp, hl, _⟩ := readBytes_ok_elim hb
    exact ⟨h2 ▸ hp, hl⟩
  | error e => rw [hb, err_bind] at h; cases h

theorem readU16_error_elim {data : List Nat} {pos : Nat} {e : PError}
    (h : readU16 data pos = .error e) : e = .truncated := by
  unfold readU16 at h
  cases hb : readBytes data pos 2 with
  | ok a => obtain ⟨bs, p'⟩ := a; rw [hb, ok_bind] at h; cases h
  | error e2 =>
    rw [hb, err_bind] at h
    injection h with h'
    exact h' ▸ readBytes_error_elim hb

theorem readU32_ok_elim {data : List Nat} {pos c p : Nat}
    (h : readU32 data pos = .ok (c, p)) :
    p = pos + 4 ∧ pos + 4 ≤ data.length ∧ c = u32At data pos := by
  unfold readU32 at h
  cases hb : readBytes data pos 4 with
  | ok a =>
    obtain ⟨bs, p'⟩ := a
    rw [hb, ok_bind] at h
    injection h with h'
    injection h' with h1 h2
    obtain ⟨hp, hl, hbs⟩ := readBytes_ok_elim hb
    exact ⟨h2 ▸ hp, hl, h1 ▸ congrArg bytesToNatLE hbs⟩
  | error e => rw [hb, err_bind] at h; cases h

theorem readU32_error_elim {data : List Nat} {pos : Nat} {e : PError}
    (h : readU32 data pos = .error e) : e = .truncated := by
  unfold readU32 at h
  cases hb : readBytes data pos 4 with
  | ok a => obtain ⟨bs, p'⟩ := a; rw [hb, ok_bind] at h; cases h
  | error e2 =>
    rw [hb, err_bind] at h
    injection h with h'
    exact h' ▸ readBytes_error_elim hb

theorem readU32_ok_of_le {data : List Nat} {pos : Nat} (h : pos + 4 ≤ data.length) :
    readU32 data pos = .ok (u32At data pos, pos + 4) := by
  unfold readU32
  rw [readBytes_ok_of_le h, ok_bind]
  rfl

theorem readU64_ok_elim {data : List Nat} {pos c p : Nat}
    (h : readU64 data pos = .ok (c, p)) :
    p = pos + 8 ∧ pos + 8 ≤ data.length ∧ c = u64At data pos := by
  unfold readU64 at h
  cases hb : readBytes data pos 8 with
  | ok a =>
    obtain ⟨bs, p'⟩ := a
    rw [hb, ok_bind] at h
    injection h with h'
    injection h' with h1 h2
    obtain ⟨hp, hl, hbs⟩ := readBytes_ok_elim hb
    exact ⟨h2 ▸ hp, hl, h1 ▸ congrArg bytesToNatLE hbs⟩
  | error e => rw [hb, err_bind] at h; cases h

theorem readU64_error_elim {data : List Nat} {pos : Nat} {e : PError}
    (h : readU64 data pos = .error e) : e = .truncated := by
  unfold readU64 at h
  cases hb : readBytes data pos 8 with
  | ok a => obtain ⟨bs, p'⟩ := a; rw [hb, ok_bind] at h; cases h
  | error e2 =>
    rw [hb, err_bind] at h
    injection h with h'
    exact h' ▸ readBytes_error_elim hb

theorem readU64_ok_of_le {data : List Nat} {pos : Nat} (h : pos + 8 ≤ data.length) :
    readU64 data pos = .ok (u64At data pos, pos + 8) := by
  unfold readU64
  rw [readBytes_ok_of_le h, ok_bind]
  rfl

theorem to_datetime_ok_elim {t : Nat} {d : DateTimeUtc}
    (h : WindowsTimestamp.to_datetime t = .ok d) :
    d.ticks = t ∧ t ≤ windowsTicksMax := by
  unfold WindowsTimestamp.to_datetime at h
  split at h
  · injection h with h'
    exact ⟨h' ▸ rfl, by assumption⟩
  · cases h

theorem to_datetime_error_elim {t : Nat} {e : PError}
    (h : WindowsTimestamp.to_datetime t = .error e) : e = .invalidTimestamp := by
  unfold WindowsTimestamp.to_datetime at h
  split at h
  · cases h
  · injection h with h'
    exact h'.symm

theorem to_datetime_error_of_gt {t : Nat} (h : windowsTicksMax < t) :
    WindowsTimestamp.to_datetime t = .error .invalidTimestamp := by
  unfold WindowsTimestamp.to_datetime
  rw [if_neg (by omega)]

theorem readBytes_error_of_gt {data : List Nat} {pos n : Nat}
    (h : data.length < pos + n) : readBytes data pos n = .error .truncated := by
  unfold readBytes
  rw [if_neg (by omega)]

theorem read_utf16_exact_error_elim {data : List Nat} {pos n : Nat} {e : PError}
    (h : read_utf16_exact data pos n = .error e) :
    e = .truncated ∨ e = .invalidStringEncoding := by
  unfold read_utf16_exact at h
  cases hb : readBytes data pos n with
  | error e2 =>
    rw [hb, err_bind] at h
    injection h with h'
    exact Or.inl (h' ▸ readBytes_error_elim hb)
  | ok a =>
    obtain ⟨bs, p⟩ := a
    rw [hb] at h
    simp only [ok_bind] at h
    split at h
    · injection h with h'
      exact Or.inr h'.symm
    · split at h
      · injection h with h'
        exact Or.inr h'.symm
      · cases h

theorem read_sized_utf16_error_elim {data : List Nat} {pos : Nat} {e : PError}
    (h : read_sized_utf16 data pos = .error e) :
    e = .truncated ∨ e = .invalidStringEncoding := by
  unfold read_sized_utf16 at h
  cases h1 : readU16 data pos with
  | error e2 =>
    rw [h1, err_bind] at h
    injection h with h'
    exact Or.inl (h' ▸ readU16_error_elim h1)
  | ok a =>
    obtain ⟨count, p1⟩ := a
    rw [h1] at h
    simp only [ok_bind] at h
    cases hb : readBytes data p1 (2 * count) with
    | error e2 =>
      rw [hb, err_bind] at h
      injection h with h'
      exact Or.inl (h' ▸ readBytes_error_elim hb)
    | ok a2 =>
      obtain ⟨bs, p2⟩ := a2
      rw [hb] at h
      simp only [ok_bind] at h
      split at h
      · injection h with h'
        exact Or.inr h'.symm
      · split at h
        · injection h with h'
          exact Or.inr h'.symm
        · cases h

theorem read_sized_utf16_ok_elim {data : List Nat} {pos : Nat} {s : String} {p : Nat}
    (h : read_sized_utf16 data pos = .ok (s, p)) :
    pos + 2 ≤ p ∧ p ≤ data.length := by
  unfold read_sized_utf16 at h
  cases h1 : readU16 data pos with
  | error e2 => rw [h1, err_bind] at h; cases h
  | ok a =>
    obtain ⟨count, p1⟩ := a
    obtain ⟨hp1, hl1⟩ := readU16_ok_elim h1
    subst hp1
    rw [h1] at h
    simp only [ok_bind] at h
    cases hb : readBytes data (pos + 2) (2 * count) with
    | error e2 => rw [hb, err_bind] at h; cases h
    | ok a2 =>
      obtain ⟨bs, p2⟩ := a2
      obtain ⟨hp2, hl2, _⟩ := readBytes_ok_elim hb
      subst hp2
      rw [hb] at h
      simp only [ok_bind] at h
      split at h
      · cases h
      · split at h
        · cases h
        · injection h with h'
          injection h' with h1' h2'
          subst h2'
          omega

theorem read_utf16_list_error_elim {data : List Nat} {pos size : Nat} {e : PError}
    (h : read_utf16_list data pos size = .error e) :
    e = .truncated ∨ e = .invalidStringEncoding := by
  unfold read_utf16_list at h
  cases hb : readBytes data pos size with
  | error e2 =>
    rw [hb, err_bind] at h
    injection h with h'
    exact Or.inl (h' ▸ readBytes_error_elim hb)
  | ok a =>
    obtain ⟨bs, p⟩ := a
    rw [hb] at h
    simp only [ok_bind] at h
    split at h
    · injection h with h'
      exact Or.inr h'.symm
    · split at h
      · injection h with h'
        exact Or.inr h'.symm
      · cases h

theorem readVolumes_ok_elim {data : List Nat} : ∀ {n pos : Nat} {l : List String} {s : Nat},
    readVolumes data pos n = .ok (l, s) →
    l.length = n ∧ pos + 2 * n ≤ s ∧ (0 < n → s ≤ data.length) := by
  intro n
  induction n with
  | zero =>
    intro pos l s h
    unfold readVolumes at h
    injection h with h'
    injection h' with h1 h2
    subst h2
    simp [← h1]
  | succ m ih =>
    intro pos l s h
    unfold readVolumes at h
    cases h1 : read_sized_utf16 data pos with
    | error e => rw [h1, err_bind] at h; cases h
    | ok a =>
      obtain ⟨s0, q⟩ := a
      obtain ⟨hq, hql⟩ := read_sized_utf16_ok_elim h1
      rw [h1] at h
      simp only [ok_bind] at h
      cases h2 : readVolumes data q m with
      | error e => rw [h2, err_bind] at h; cases h
      | ok a2 =>
        obtain ⟨l', s'⟩ := a2
        rw [h2] at h
        simp only [ok_bind] at h
        injection h with h'
        injection h' with hl hs
        subst hs
        obtain ⟨ihl, ihb, ihle⟩ := ih h2
        refine ⟨by rw [← hl]; simp [ihl], by omega, fun _ => ?_⟩
        rcases Nat.eq_zero_or_pos m with hm | hm
        · subst hm
          unfold readVolumes at h2
          injection h2 with h2'
          injection h2' with _ h2s
          omega
        · exact ihle hm

theorem readVolumes_error_elim {data : List Nat} : ∀ {n pos : Nat} {e : PError},
    readVolumes data pos n = .error e →
    e = .truncated ∨ e = .invalidStringEncoding := by
  intro n
  induction n with
  | zero => intro pos e h; unfold readVolumes at h; cases h
  | succ m ih =>
    intro pos e h
    unfold readVolumes at h
    cases h1 : read_sized_utf16 data pos with
    | error e2 =>
      rw [h1, err_bind] at h
      injection h with h'
      exact h' ▸ read_sized_utf16_error_elim h1
    | ok a =>
      obtain ⟨s0, q⟩ := a
      rw [h1] at h
      simp only [ok_bind] at h
      cases h2 : readVolumes data q m with
      | error e2 =>
        rw [h2, err_bind] at h
        injection h with h'
        exact h' ▸ ih h2
      | ok a2 =>
        obtain ⟨l', s'⟩ := a2
        rw [h2] at h
        simp only [ok_bind] at h
        cases h

theorem readVolumes_past_end {data : List Nat} {pos n : Nat}
    (hp : data.length ≤ pos) (hn : 0 < n) :
    readVolumes data pos n = .error .truncated := by
  cases n with
  | zero => omega
  | succ m =>
    have hs : read_sized_utf16 data pos = .error .truncated := by
      unfold read_sized_utf16 readU16
      rw [readBytes_error_of_gt (by omega), err_bind, err_bind]
    unfold readVolumes
    rw [hs, err_bind]

theorem from_reader_ok_elim {data : List Nat} {pos : Nat} {hd : PrefetchHeader} {pEnd : Nat}
    (h : PrefetchHeader.from_reader data pos = .ok (hd, pEnd)) :
    (∃ c, readU32 data pos = .ok (c, pos + 4) ∧ versionOfCode c = some hd.version) ∧
    pEnd = 0x70 ∧ 0x70 ≤ data.length := by
  unfold PrefetchHeader.from_reader at h
  cases h1 : readU32 data pos with
  | error e => rw [h1, err_bind] at h; cases h
  | ok a =>
    obtain ⟨c, p1⟩ := a
    obtain ⟨hp1, -, -⟩ := readU32_ok_elim h1
    subst hp1
    rw [h1] at h
    simp only [ok_bind] at h
    cases hv : versionOfCode c with
    | none => rw [hv] at h; cases h
    | some v =>
      rw [hv] at h
      dsimp only at h
      cases h2 : readBytes data (pos + 4) 4 with
      | error e => rw [h2, err_bind] at h; cases h
      | ok a2 =>
        obtain ⟨sig, p2⟩ := a2
        rw [h2] at h
        simp only [ok_bind] at h
        cases h3 : decodeUtf8 sig with
        | none => rw [h3] at h; cases h
        | some sigChars =>
          rw [h3] at h
          dsimp only at h
          cases h4 : readU32 data (p2 + 4) with
          | error e => rw [h4, err_bind] at h; cases h
          | ok a4 =>
            obtain ⟨fs, p4⟩ := a4
            rw [h4] at h
            simp only [ok_bind] at h
            cases h5 : read_utf16_exact data p4 60 with
            | error e => rw [h5, err_bind] at h; cases h
            | ok a5 =>
              obtain ⟨nm, p5⟩ := a5
              rw [h5] at h
              simp only [ok_bind] at h
              cases h6 : readU32 data p5 with
              | error e => rw [h6, err_bind] at h; cases h
              | ok a6 =>
                obtain ⟨hsh, p6⟩ := a6
                rw [h6] at h
                simp only [ok_bind] at h
                cases h7 : readU32 data 0x64 with
                | error e => rw [h7, err_bind] at h; cases h
                | ok a7 =>
                  obtain ⟨ffpo, p7⟩ := a7
                  obtain ⟨hp7, -, -⟩ := readU32_ok_elim h7
                  subst hp7
                  rw [h7] at h
                  simp only [ok_bind] at h
                  cases h8 : readU32 data (0x64 + 4) with
                  | error e => rw [h8, err_bind] at h; cases h
                  | ok a8 =>
                    obtain ⟨ffps, p8⟩ := a8
                    obtain ⟨hp8, -, -⟩ := readU32_ok_elim h8
                    subst hp8
                    rw [h8] at h
                    simp only [ok_bind] at h
                    cases h9 : readU32 data (0x64 + 4 + 4) with
                    | error e => rw [h9, err_bind] at h; cases h
                    | ok a9 =>
                      obtain ⟨vio, p9⟩ := a9
                      obtain ⟨hp9, hl9, -⟩ := readU32_ok_elim h9
                      subst hp9
                      rw [h9] at h
                      simp only [ok_bind] at h
                      injection h with h'
                      injection h' with hhd hpe
                      refine ⟨⟨c, rfl, ?_⟩, by omega, by omega⟩
                      rw [← hhd, hv]

theorem from_reader_unknown_of_code {data : List Nat} {pos c p : Nat}
    (h1 : readU32 data pos = .ok (c, p)) (hv : versionOfCode c = none) :
    PrefetchHeader.from_reader data pos = .error .unknownVersion := by
  unfold PrefetchHeader.from_reader
  rw [h1]
  simp only [ok_bind]
  rw [hv]

theorem from_reader_error_cases {data : List Nat} {pos : Nat} {e : PError}
    (h : PrefetchHeader.from_reader data pos = .error e) :
    e = .unknownVersion ∨ e = .malformedSignature ∨ e = .truncated ∨
      e = .invalidStringEncoding := by
  unfold PrefetchHeader.from_reader at h
  cases h1 : readU32 data pos with
  | error e2 =>
    rw [h1, err_bind] at h
    injection h with h'
    exact Or.inr (Or.inr (Or.inl (h' ▸ readU32_error_elim h1)))
  | ok a =>
    obtain ⟨c, p1⟩ := a
    rw [h1] at h
    simp only [ok_bind] at h
    cases hv : versionOfCode c with
    | none =>
      rw [hv] at h
      injection h with h'
      exact Or.inl h'.symm
    | some v =>
      rw [hv] at h
      dsimp only at h
      cases h2 : readBytes data p1 4 with
      | error e2 =>
        rw [h2, err_bind] at h
        injection h with h'
        exact Or.inr (Or.inr (Or.inl (h' ▸ readBytes_error_elim h2)))
      | ok a2 =>
        obtain ⟨sig, p2⟩ := a2
        rw [h2] at h
        simp only [ok_bind] at h
        cases h3 : decodeUtf8 sig with
        | none =>
          rw [h3] at h
          injection h with h'
          exact Or.inr (Or.inl h'.symm)
        | some sigChars =>
          rw [h3] at h
          dsimp only at h
          cases h4 : readU32 data (p2 + 4) with
          | error e2 =>
            rw [h4, err_bind] at h
            injection h with h'
            exact Or.inr (Or.inr (Or.inl (h' ▸ readU32_error_elim h4)))
          | ok a4 =>
            obtain ⟨fs, p4⟩ := a4
            rw [h4] at h
            simp only [ok_bind] at h
            cases h5 : read_utf16_exact data p4 60 with
            | error e2 =>
              rw [h5, err_bind] at h
              injection h with h'
              exact Or.inr (Or.inr (h' ▸ read_utf16_exact_error_elim h5))
            | ok a5 =>
              obtain ⟨nm, p5⟩ := a5
              rw [h5] at h
              simp only [ok_bind] at h
              cases h6 : readU32 data p5 with
              | error e2 =>
                rw [h6, err_bind] at h
                injection h with h'
                exact Or.inr (Or.inr (Or.inl (h' ▸ readU32_error_elim h6)))
              | ok a6 =>
                obtain ⟨hsh, p6⟩ := a6
                rw [h6] at h
                simp only [ok_bind] at h
                cases h7 : readU32 data 0x64 with
                | error e2 =>
                  rw [h7, err_bind] at h
                  injection h with h'
                  exact Or.inr (Or.inr (Or.inl (h' ▸ readU32_error_elim h7)))
                | ok a7 =>
                  obtain ⟨ffpo, p7⟩ := a7
                  rw [h7] at h
                  simp only [ok_bind] at h
                  cases h8 : readU32 data p7 with
                  | error e2 =>
                    rw [h8, err_bind] at h
                    injection h with h'
                    exact Or.inr (Or.inr (Or.inl (h' ▸ readU32_error_elim h8)))
                  | ok a8 =>
                    obtain ⟨ffps, p8⟩ := a8
                    rw [h8] at h
                    simp only [ok_bind] at h
                    cases h9 : readU32 data p8 with
                    | error e2 =>
                      rw [h9, err_bind] at h
                      injection h with h'
                      exact Or.inr (Or.inr (Or.inl (h' ▸ readU32_error_elim h9)))
                    | ok a9 =>
                      obtain ⟨vio, p9⟩ := a9
                      rw [h9] at h
                      simp only [ok_bind] at h
                      cases h

theorem xp_from_reader_ok_elim {data : List Nat} {pos : Nat} {fi : FileInformation} {p : Nat}
    (h : FileInformation.xp_from_reader data pos = .ok (fi, p)) :
    WindowsTimestamp.to_datetime (u64At data 0x78) = .ok fi.last_execution_time ∧
    fi.number_of_execution = u32At data 0x90 ∧ p = 0x94 ∧ 0x94 ≤ data.length := by
  unfold FileInformation.xp_from_reader at h
  cases h1 : readU64 data 0x78 with
  | error e => rw [h1, err_bind] at h; cases h
  | ok a =>
    obtain ⟨t, q1⟩ := a
    obtain ⟨-, -, ht⟩ := readU64_ok_elim h1
    subst ht
    rw [h1] at h
    simp only [ok_bind] at h
    cases h2 : WindowsTimestamp.to_datetime (u64At data 0x78) with
    | error e => rw [h2, err_bind] at h; cases h
    | ok d =>
      rw [h2] at h
      simp only [ok_bind] at h
      cases h3 : readU32 data 0x90 with
      | error e => rw [h3, err_bind] at h; cases h
      | ok a3 =>
        obtain ⟨n, q3⟩ := a3
        obtain ⟨hq3, hl3, hn⟩ := readU32_ok_elim h3
        subst hq3
        subst hn
        rw [h3] at h
        simp only [ok_bind] at h
        injection h with h'
        injection h' with hfi hp
        rw [← hfi]
        exact ⟨rfl, rfl, by omega, by omega⟩

theorem vista_from_reader_ok_elim {data : List Nat} {pos : Nat} {fi : FileInformation} {p : Nat}
    (h : FileInformation.vista_from_reader data pos = .ok (fi, p)) :
    WindowsTimestamp.to_datetime (u64At data 0x80) = .ok fi.last_execution_time ∧
    fi.number_of_execution = u32At data 0x98 ∧ p = 0x9C ∧ 0x9C ≤ data.length := by
  unfold FileInformation.vista_from_reader at h
  cases h1 : readU64 data 0x80 with
  | error e => rw [h1, err_bind] at h; cases h
  | ok a =>
    obtain ⟨t, q1⟩ := a
    obtain ⟨-, -, ht⟩ := readU64_ok_elim h1
    subst ht
    rw [h1] at h
    simp only [ok_bind] at h
    cases h2 : WindowsTimestamp.to_datetime (u64At data 0x80) with
    | error e => rw [h2, err_bind] at h; cases h
    | ok d =>
      rw [h2] at h
      simp only [ok_bind] at h
      cases h3 : readU32 data 0x98 with
      | error e => rw [h3, err_bind] at h; cases h
      | ok a3 =>
        obtain ⟨n, q3⟩ := a3
        obtain ⟨hq3, hl3, hn⟩ := readU32_ok_elim h3
        subst hq3
        subst hn
        rw [h3] at h
        simp only [ok_bind] at h
        injection h with h'
        injection h' with hfi hp
        rw [← hfi]
        exact ⟨rfl, rfl, by omega, by omega⟩

theorem w8_from_reader_ok_elim {data : List Nat} {pos : Nat} {fi : FileInformation} {p : Nat}
    (h : FileInformation.w8_from_reader data pos = .ok (fi, p)) :
    WindowsTimestamp.to_datetime (u64At data 0x80) = .ok fi.last_execution_time ∧
    fi.number_of_execution = u32At data 0xD0 ∧ p = 0xD4 ∧ 0xD4 ≤ data.length := by
  unfold FileInformation.w8_from_reader at h
  cases h1 : readU64 data 0x80 with
  | error e => rw [h1, err_bind] at h; cases h
  | ok a =>
    obtain ⟨t, q1⟩ := a
    obtain ⟨-, -, ht⟩ := readU64_ok_elim h1
    subst ht
    rw [h1] at h
    simp only [ok_bind] at h
    cases h2 : WindowsTimestamp.to_datetime (u64At data 0x80) with
    | error e => rw [h2, err_bind] at h; cases h
    | ok d =>
      rw [h2] at h
      simp only [ok_bind] at h
      cases h3 : readU32 data 0xD0 with
      | error e => rw [h3, err_bind] at h; cases h
      | ok a3 =>
        obtain ⟨n, q3⟩ := a3
        obtain ⟨hq3, hl3, hn⟩ := readU32_ok_elim h3
        subst hq3
        subst hn
        rw [h3] at h
        simp only [ok_bind] at h
        injection h with h'
        injection h' with hfi hp
        rw [← hfi]
        exact ⟨rfl, rfl, by omega, by omega⟩

theorem for_version_ok_ticks {v : PrefetchVersion} {data : List Nat} {pos : Nat}
    {fi : FileInformation} {p : Nat}
    (h : FileInformation.for_version v data pos = .ok (fi, p)) :
    fi.last_execution_time.ticks ≤ windowsTicksMax := by
  cases v with
  | WindowsXP =>
    obtain ⟨hc, -, -, -⟩ := @xp_from_reader_ok_elim data pos fi p h
    obtain ⟨ht, hb⟩ := to_datetime_ok_elim hc
    omega
  | WindowsVista =>
    obtain ⟨hc, -, -, -⟩ := @vista_from_reader_ok_elim data pos fi p h
    obtain ⟨ht, hb⟩ := to_datetime_ok_elim hc
    omega
  | Windows8 =>
    obtain ⟨hc, -, -, -⟩ := @w8_from_reader_ok_elim data pos fi p h
    obtain ⟨ht, hb⟩ := to_datetime_ok_elim hc
    omega
  | Windows10 => cases h

theorem volume_info_ok_elim {data : List Nat} {pos : Nat} {vi : VolumeInformation} {p : Nat}
    (h : VolumeInformation.from_reader data pos = .ok (vi, p)) :
    WindowsTimestamp.to_datetime (u64At data (pos + 8)) = .ok vi.volume_creation_date ∧
    vi.volume_serial_number = u32At data (pos + 16) ∧
    vi.folder_path_offset = u32At data (pos + 28) ∧
    vi.folder_path_count = u32At data (pos + 32) ∧
    p = pos + 36 ∧ pos + 36 ≤ data.length := by
  unfold VolumeInformation.from_reader at h
  cases h1 : readU32 data pos with
  | error e => rw [h1, err_bind] at h; cases h
  | ok a =>
    obtain ⟨vpo, q1⟩ := a
    obtain ⟨hq1, -, -⟩ := readU32_ok_elim h1
    subst hq1
    rw [h1] at h
    simp only [ok_bind] at h
    cases h2 : readU32 data (pos + 4) with
    | error e => rw [h2, err_bind] at h; cases h
    | ok a2 =>
      obtain ⟨vps, q2⟩ := a2
      obtain ⟨hq2, -, -⟩ := readU32_ok_elim h2
      subst hq2
      have e2 : pos + 4 + 4 = pos + 8 := by omega
      rw [h2] at h
      simp only [ok_bind, e2] at h
      cases h3 : readU64 data (pos + 8) with
      | error e => rw [h3, err_bind] at h; cases h
      | ok a3 =>
        obtain ⟨craw, q3⟩ := a3
        obtain ⟨hq3, -, hc⟩ := readU64_ok_elim h3
        subst hq3
        subst hc
        have e3 : pos + 8 + 8 = pos + 16 := by omega
        rw [h3] at h
        simp only [ok_bind, e3] at h
        cases h4 : WindowsTimestamp.to_datetime (u64At data (pos + 8)) with
        | error e => rw [h4, err_bind] at h; cases h
        | ok d =>
          rw [h4] at h
          simp only [ok_bind] at h
          cases h5 : readU32 data (pos + 16) with
          | error e => rw [h5, err_bind] at h; cases h
          | ok a5 =>
            obtain ⟨serial, q5⟩ := a5
            obtain ⟨hq5, -, hser⟩ := readU32_ok_elim h5
            subst hq5
            subst hser
            have e5 : pos + 16 + 4 = pos + 20 := by omega
            rw [h5] at h
            simp only [ok_bind, e5] at h
            cases h6 : readU32 data (pos + 20) with
            | error e => rw [h6, err_bind] at h; cases h
            | ok a6 =>
              obtain ⟨b1o, q6⟩ := a6
              obtain ⟨hq6, -, -⟩ := readU32_ok_elim h6
              subst hq6
              have e6 : pos + 20 + 4 = pos + 24 := by omega
              rw [h6] at h
              simp only [ok_bind, e6] at h
              cases h7 : readU32 data (pos + 24) with
              | error e => rw [h7, err_bind] at h; cases h
              | ok a7 =>
                obtain ⟨b1s, q7⟩ := a7
                obtain ⟨hq7, -, -⟩ := readU32_ok_elim h7
                subst hq7
                have e7 : pos + 24 + 4 = pos + 28 := by omega
                rw [h7] at h
                simp only [ok_bind, e7] at h
                cases h8 : readU32 data (pos + 28) with
                | error e => rw [h8, err_bind] at h; cases h
                | ok a8 =>
                  obtain ⟨fpo, q8⟩ := a8
                  obtain ⟨hq8, -, hfpo⟩ := readU32_ok_elim h8
                  subst hq8
                  subst hfpo
                  have e8 : pos + 28 + 4 = pos + 32 := by omega
                  rw [h8] at h
                  simp only [ok_bind, e8] at h
                  cases h9 : readU32 data (pos + 32) with
                  | error e => rw [h9, err_bind] at h; cases h
                  | ok a9 =>
                    obtain ⟨fpc, q9⟩ := a9
                    obtain ⟨hq9, hl9, hfpc⟩ := readU32_ok_elim h9
                    subst hq9
                    subst hfpc
                    rw [h9] at h
                    simp only [ok_bind] at h
                    injection h with h'
                    injection h' with hvi hp
                    rw [← hvi]
                    exact ⟨rfl, rfl, rfl, rfl, by omega, by omega⟩

theorem volume_info_invalid_ts {data : List Nat} {pos : Nat}
    (hlen : pos + 16 ≤ data.length) (ht : windowsTicksMax < u64At data (pos + 8)) :
    VolumeInformation.from_reader data pos = .error .invalidTimestamp := by
  unfold VolumeInformation.from_reader
  rw [readU32_ok_of_le (by omega)]
  simp only [ok_bind]
  rw [readU32_ok_of_le (by omega)]
  simp only [ok_bind]
  have e2 : pos + 4 + 4 = pos + 8 := by omega
  rw [e2, readU64_ok_of_le (by omega)]
  simp only [ok_bind]
  rw [to_datetime_error_of_gt ht, err_bind]

theorem xp_invalid_ts {data : List Nat} {pos : Nat}
    (hlen : 0x80 ≤ data.length) (ht : windowsTicksMax < u64At data 0x78) :
    FileInformation.xp_from_reader data pos = .error .invalidTimestamp := by
  unfold FileInformation.xp_from_reader
  rw [readU64_ok_of_le (by omega)]
  simp only [ok_bind]
  rw [to_datetime_error_of_gt ht, err_bind]

theorem from_file_ok_elim {data : List Nat} {pf : Prefetch}
    (h : Prefetch.from_file data = .ok pf) :
    ∃ p1 p2 p3 p4 p5,
      PrefetchHeader.from_reader data 0 = .ok (pf.header, p1) ∧
      FileInformation.for_version pf.header.version data p1 = .ok (pf.file_information, p2) ∧
      VolumeInformation.from_reader data pf.header.volume_information_offset =
        .ok (pf.volume_information, p3) ∧
      read_utf16_list data pf.header.first_file_path_offset pf.header.first_file_path_size =
        .ok (pf.files, p4) ∧
      readVolumes data
          ((pf.header.volume_information_offset +
            pf.volume_information.folder_path_offset) % 4294967296)
          pf.volume_information.folder_path_count = .ok (pf.volumes, p5) := by
  unfold Prefetch.from_file at h
  cases h1 : PrefetchHeader.from_reader data 0 with
  | error e => rw [h1, err_bind] at h; cases h
  | ok a =>
    obtain ⟨hdr, p1⟩ := a
    rw [h1] at h
    simp only [ok_bind] at h
    cases h2 : FileInformation.for_version hdr.version data p1 with
    | error e => rw [h2, err_bind] at h; cases h
    | ok a2 =>
      obtain ⟨fi, p2⟩ := a2
      rw [h2] at h
      simp only [ok_bind] at h
      cases h3 : VolumeInformation.from_reader data hdr.volume_information_offset with
      | error e => rw [h3, err_bind] at h; cases h
      | ok a3 =>
        obtain ⟨vi, p3⟩ := a3
        rw [h3] at h
        simp only [ok_bind] at h
        cases h4 : read_utf16_list data hdr.first_file_path_offset hdr.first_file_path_size with
        | error e => rw [h4, err_bind] at h; cases h
        | ok a4 =>
          obtain ⟨fls, p4⟩ := a4
          rw [h4] at h
          simp only [ok_bind] at h
          cases h5 : readVolumes data
              ((hdr.volume_information_offset + vi.folder_path_offset) % 4294967296)
              vi.folder_path_count with
          | error e => rw [h5, err_bind] at h; cases h
          | ok a5 =>
            obtain ⟨vols, p5⟩ := a5
            rw [h5] at h
            simp only [ok_bind] at h
            injection h with h'
            subst h'
            exact ⟨p1, p2, p3, p4, p5, rfl, h2, h3, h4, h5⟩

deriving instance DecidableEq for Except

set_option maxRecDepth 100000

/-! The claims. -/

/-- Claim C1: decoding the crafted buffer (version code 0x11/XP, ASCII
signature "SCCA", file size 1000, 60-byte UTF-16 name "TEST.EXE" padded
with nulls, hash 0xDEADBEEF, first-file-path offset/size locating the
two-entry null-terminated UTF-16 list, volume-information offset locating
a volume record with serial number 0x12345678 and folder-path count 1
whose table holds one length-prefixed string) yields a record whose header
file name is "TEST.EXE", whose files list is the two dll paths, whose
volumes list is the one device path, and whose volume serial number is
0x12345678. -/
theorem claim_C1_crafted_buffer_decodes :
    Prefetch.from_file pfBuf = .ok pfExpected ∧
    pfExpected.header.file_name = "TEST.EXE" ∧
    pfExpected.files = ["\\C\\a.dll", "\\C\\b.dll"] ∧
    pfExpected.volumes = ["\\Device\\HarddiskVolume1"] ∧
    pfExpected.volume_information.volume_serial_number = 0x12345678 :=
  ⟨by decide, by decide, by decide, by decide, by decide⟩

/-- Claim C2: each Execution-Info decoder reads the 8-byte little-endian
last-execution timestamp and the 4-byte little-endian run count at the
version-specific absolute offsets of the layout table: 0x78 and 0x90 for
XP, 0x80 and 0x98 for Vista, 0x80 and 0xD0 for Windows 8. -/
theorem claim_C2_execution_info_offsets (data : List Nat) (pos : Nat)
    (fi : FileInformation) (p : Nat) :
    (FileInformation.xp_from_reader data pos = .ok (fi, p) →
      WindowsTimestamp.to_datetime (u64At data 0x78) = .ok fi.last_execution_time ∧
      fi.number_of_execution = u32At data 0x90) ∧
    (FileInformation.vista_from_reader data pos = .ok (fi, p) →
      WindowsTimestamp.to_datetime (u64At data 0x80) = .ok fi.last_execution_time ∧
      fi.number_of_execution = u32At data 0x98) ∧
    (FileInformation.w8_from_reader data pos = .ok (fi, p) →
      WindowsTimestamp.to_datetime (u64At data 0x80) = .ok fi.last_execution_time ∧
      fi.number_of_execution = u32At data 0xD0) := by
  refine ⟨fun h => ?_, fun h => ?_, fun h => ?_⟩
  · obtain ⟨a, b, -, -⟩ := xp_from_reader_ok_elim h
    exact ⟨a, b⟩
  · obtain ⟨a, b, -, -⟩ := vista_from_reader_ok_elim h
    exact ⟨a, b⟩
  · obtain ⟨a, b, -, -⟩ := w8_from_reader_ok_elim h
    exact ⟨a, b⟩

/-- The execution info the crafted buffer decodes to. -/
def pfFileInfo : FileInformation := { last_execution_time := ⟨128⟩, number_of_execution := 5 }

/-- Witness for C2: the XP reader on the crafted buffer. -/
theorem claim_C2_witness :
    WindowsTimestamp.to_datetime (u64At pfBuf 0x78) = .ok pfFileInfo.last_execution_time ∧
    pfFileInfo.number_of_execution = u32At pfBuf 0x90 :=
  (claim_C2_execution_info_offsets pfBuf 0 pfFileInfo 0x94).1 (by decide)

/-- Claim C3: the full decode selects the layout matching the version code
for 0x11 (XP), 0x17 (Vista) and 0x1a (Windows 8); for 0x30 (Windows 10) it
returns the unsupported-version error; any other 4-byte version code fails
with the version-mismatch error. -/
theorem claim_C3_version_dispatch :
    (versionOfCode 0x11 = some .WindowsXP ∧ versionOfCode 0x17 = some .WindowsVista ∧
      versionOfCode 0x1a = some .Windows8 ∧ versionOfCode 0x30 = some .Windows10) ∧
    (∀ data pos,
      FileInformation.for_version .WindowsXP data pos =
        FileInformation.xp_from_reader data pos ∧
      FileInformation.for_version .WindowsVista data pos =
        FileInformation.vista_from_reader data pos ∧
      FileInformation.for_version .Windows8 data pos =
        FileInformation.w8_from_reader data pos ∧
      FileInformation.for_version .Windows10 data pos = .error .unsupportedVersion) ∧
    (∀ data hd p c, PrefetchHeader.from_reader data 0 = .ok (hd, p) →
      readU32 data 0 = .ok (c, 4) → versionOfCode c = some hd.version) ∧
    (∀ data hd p, PrefetchHeader.from_reader data 0 = .ok (hd, p) →
      hd.version = .Windows10 → Prefetch.from_file data = .error .unsupportedVersion) ∧
    (∀ data c p, readU32 data 0 = .ok (c, p) → versionOfCode c = none →
      Prefetch.from_file data = .error .unknownVersion) := by
  refine ⟨⟨by decide, by decide, by decide, by decide⟩,
          fun data pos => ⟨rfl, rfl, rfl, rfl⟩, ?_, ?_, ?_⟩
  · intro data hd p c h1 h2
    obtain ⟨⟨c', hr, hv⟩, -, -⟩ := from_reader_ok_elim h1
    have h3 := hr.symm.trans h2
    injection h3 with h4
    injection h4 with hc hp
    exact hc ▸ hv
  · intro data hd p h1 hv
    unfold Prefetch.from_file
    rw [h1]
    simp only [ok_bind]
    rw [hv]
    rfl
  · intro data c p h1 hv
    have hr := from_reader_unknown_of_code h1 hv
    unfold Prefetch.from_file
    rw [hr, err_bind]

/-- Witness for C3: the crafted buffer with version code 0x30 is rejected
by the full decode with the unsupported-version error. -/
theorem claim_C3_witness : Prefetch.from_file pfBuf30 = .error .unsupportedVersion :=
  claim_C3_version_dispatch.2.2.2.1 pfBuf30 hdr30 0x70 (by decide) (by decide)

/-- Claim C4 counterexample: with version code 0x30 (Windows 10) the
header decoder does not fail; it produces a header tagged Windows10, so
the claim that `from_reader` rejects 0x30 rather than producing a header
is false. -/
theorem claim_C4_counterexample :
    PrefetchHeader.from_reader pfBuf30 0 = .ok (hdr30, 0x70) ∧
    hdr30.version = .Windows10 :=
  ⟨by decide, by decide⟩

/-- Claim C4, amended: the header decoder fails with the version-mismatch
error for every readable version code outside its table; it never returns
the unsupported-version error itself (in particular the Win10 code 0x30 is
recognized and produces a header), and the rejection of Windows 10 is
performed by the full decode. -/
theorem claim_C4_amended :
    (∀ data pos c p, readU32 data pos = .ok (c, p) → versionOfCode c = none →
      PrefetchHeader.from_reader data pos = .error .unknownVersion) ∧
    (∀ (data : List Nat) (pos : Nat),
      PrefetchHeader.from_reader data pos ≠ .error .unsupportedVersion) ∧
    Prefetch.from_file pfBuf30 = .error .unsupportedVersion := by
  refine ⟨fun data pos c p h1 hv => from_reader_unknown_of_code h1 hv,
          fun data pos hcon => ?_, by decide⟩
  rcases from_reader_error_cases hcon with h | h | h | h <;> exact absurd h (by decide)

/-- Witness for C4 (amended): an unrecognized version code 0x12. -/
theorem claim_C4_witness :
    PrefetchHeader.from_reader [18, 0, 0, 0] 0 = .error .unknownVersion :=
  claim_C4_amended.1 [18, 0, 0, 0] 0 18 4 (by decide) (by decide)

/-- A 148-byte XP buffer whose volume-information offset is 112 and whose
record-relative folder-path offset is 0xFFFFFFE0 = 4294967264: the u32 sum
112 + 4294967264 wraps modulo 2^32 to 80, a zero region of the header, so
the decode succeeds reading one empty length-prefixed string there while
the unbounded sum 4294967376 lies far past the end of the buffer. -/
def pfBufWrap : List Nat := [
  17, 0, 0, 0, 83, 67, 67, 65, 0, 0, 0, 0, 0, 0, 0, 0, 0, 0, 0, 0, 0, 0, 0, 0, 0, 0, 0, 0, 0, 0, 0,
  0, 0, 0, 0, 0, 0, 0, 0, 0, 0, 0, 0, 0, 0, 0, 0, 0, 0, 0, 0, 0, 0, 0, 0, 0, 0, 0, 0, 0, 0, 0, 0, 0,
  0, 0, 0, 0, 0, 0, 0, 0, 0, 0, 0, 0, 0, 0, 0, 0, 0, 0, 0, 0, 0, 0, 0, 0, 0, 0, 0, 0, 0, 0, 0, 0, 0,
  0, 0, 0, 148, 0, 0, 0, 0, 0, 0, 0, 112, 0, 0, 0, 0, 0, 0, 0, 0, 0, 0, 0, 0, 0, 0, 0, 0, 0, 0, 0,
  0, 0, 0, 0, 0, 0, 0, 0, 0, 0, 0, 0, 224, 255, 255, 255, 1, 0, 0, 0
]

/-- The record `pfBufWrap` decodes to. -/
def pfWrapExpected : Prefetch :=
  { header := { version := .WindowsXP, signature := "SCCA", file_size := 0,
                file_name := "", hash := 0,
                first_file_path_offset := 148, first_file_path_size := 0,
                volume_information_offset := 112 },
    file_information := { last_execution_time := ⟨0⟩, number_of_execution := 1 },
    volume_information :=
      { volume_path_offset := 0, volume_path_size := 0,
        volume_creation_date := ⟨0⟩, volume_serial_number := 0,
        blob1_offset := 0, blob1_size := 0,
        folder_path_offset := 4294967264, folder_path_count := 1 },
    files := [],
    volumes := [""] }

/-- Claim C5 counterexample: on `pfBufWrap` the decode succeeds, yet the
unbounded sum `volume_information_offset + folder_path_offset` is
4294967376, past the 148-byte buffer, where reading the one declared
folder path is impossible (truncated) — the table was actually read at the
32-bit wrapped position 80, so the folder-path table is not read at the
absolute position given by the unbounded sum. -/
theorem claim_C5_counterexample :
    Prefetch.from_file pfBufWrap = .ok pfWrapExpected ∧
    pfWrapExpected.header.volume_information_offset +
      pfWrapExpected.volume_information.folder_path_offset = 4294967376 ∧
    readVolumes pfBufWrap 4294967376 1 = .error .truncated ∧
    readVolumes pfBufWrap 80 1 = .ok (pfWrapExpected.volumes, 82) :=
  ⟨by decide, by decide, by decide, by decide⟩

/-- Claim C5, amended: in every successful decode, the folder-path table
was read starting at the position obtained by adding the header's
volume-information offset to the record-relative folder-path offset in
32-bit arithmetic, `(volume_information_offset + folder_path_offset) mod
2^32` — the same as the plain sum whenever that sum fits in 32 bits; a
sum that overflows wraps and the table is read at the wrapped position. -/
theorem claim_C5_amended (data : List Nat) (pf : Prefetch)
    (h : Prefetch.from_file data = .ok pf) :
    ∃ s, readVolumes data
        ((pf.header.volume_information_offset +
          pf.volume_information.folder_path_offset) % 4294967296)
        pf.volume_information.folder_path_count = .ok (pf.volumes, s) ∧
      (pf.header.volume_information_offset + pf.volume_information.folder_path_offset <
          4294967296 →
        readVolumes data
          (pf.header.volume_information_offset + pf.volume_information.folder_path_offset)
          pf.volume_information.folder_path_count = .ok (pf.volumes, s)) := by
  obtain ⟨p1, p2, p3, p4, p5, -, -, -, -, h5⟩ := from_file_ok_elim h
  refine ⟨p5, h5, fun hlt => ?_⟩
  rwa [Nat.mod_eq_of_lt hlt] at h5

/-- Witness for C5 (amended): the crafted buffer (240 + 36 = 276, no
wrap, so both conjuncts apply). -/
theorem claim_C5_witness :
    ∃ s, readVolumes pfBuf
        ((pfExpected.header.volume_information_offset +
          pfExpected.volume_information.folder_path_offset) % 4294967296)
        pfExpected.volume_information.folder_path_count = .ok (pfExpected.volumes, s) ∧
      (pfExpected.header.volume_information_offset +
          pfExpected.volume_information.folder_path_offset < 4294967296 →
        readVolumes pfBuf
          (pfExpected.header.volume_information_offset +
            pfExpected.volume_information.folder_path_offset)
          pfExpected.volume_information.folder_path_count = .ok (pfExpected.volumes, s)) :=
  claim_C5_amended pfBuf pfExpected (by decide)

/-- Claim C6 counterexample: a folder-path count (3) declaring more
length-prefixed strings than the 4 available bytes can supply, where the
first available string is an unpaired surrogate: the loop fails with the
string-encoding error, not with the truncation error the claim demands. -/
theorem claim_C6_counterexample :
    ([1, 0, 0, 216] : List Nat).length < 0 + 2 * 3 ∧
    readVolumes [1, 0, 0, 216] 0 3 = .error .invalidStringEncoding ∧
    PError.invalidStringEncoding ≠ PError.truncated := by
  exact ⟨by decide, by decide, by decide⟩

/-- Claim C6, amended: a folder-path count declaring more length-prefixed
strings than the bytes actually available can supply makes the loop
terminate with an error — the truncation error when the shortage itself is
hit (in particular whenever the position the loop starts reading at is at
or past the end of the data), though a malformed string among the
available bytes may surface the string-encoding error first — it never
loops forever and never returns a partial list; consequently a successful
decode fits its whole folder-path table within the data, at the 32-bit
wrapped position `(volume_information_offset + folder_path_offset) mod
2^32` the assembler actually seeks to. -/
theorem claim_C6_amended :
    (∀ (data : List Nat) (pos n : Nat) (l : List String) (s : Nat),
      readVolumes data pos n = .ok (l, s) →
      pos + 2 * n ≤ s ∧ (0 < n → s ≤ data.length)) ∧
    (∀ (data : List Nat) (pos n : Nat), 0 < n → data.length < pos + 2 * n →
      ∃ e, readVolumes data pos n = .error e ∧
        (e = .truncated ∨ e = .invalidStringEncoding)) ∧
    (∀ (data : List Nat) (pos n : Nat), data.length ≤ pos → 0 < n →
      readVolumes data pos n = .error .truncated) ∧
    (∀ (data : List Nat) (pf : Prefetch), Prefetch.from_file data = .ok pf →
      0 < pf.volume_information.folder_path_count →
      (pf.header.volume_information_offset +
          pf.volume_information.folder_path_offset) % 4294967296 +
        2 * pf.volume_information.folder_path_count ≤ data.length) := by
  refine ⟨?_, ?_, ?_, ?_⟩
  · intro data pos n l s h
    obtain ⟨-, hb, hle⟩ := readVolumes_ok_elim h
    exact ⟨hb, hle⟩
  · intro data pos n hn hlen
    cases hres : readVolumes data pos n with
    | ok a =>
      obtain ⟨l, s⟩ := a
      obtain ⟨-, hb, hle⟩ := readVolumes_ok_elim hres
      have hs := hle hn
      omega
    | error e => exact ⟨e, rfl, readVolumes_error_elim hres⟩
  · intro data pos n hp hn
    exact readVolumes_past_end hp hn
  · intro data pf h hc
    obtain ⟨p1, p2, p3, p4, p5, -, -, -, -, h5⟩ := from_file_ok_elim h
    obtain ⟨-, hb, hle⟩ := readVolumes_ok_elim h5
    have hs := hle hc
    omega

/-- Witness for C6 (amended): one declared string, no bytes at all. -/
theorem claim_C6_witness : readVolumes [] 0 1 = .error .truncated :=
  claim_C6_amended.2.2.1 [] 0 1 (by decide) (by decide)

/-- Claim C7 counterexample: the buffer [0,0,0,0] is shorter than the
0x70-byte minimum header size, yet the decode fails with the
version-mismatch error (code 0 is not in the table), not with the
truncation error the claim demands for every short buffer. -/
theorem claim_C7_counterexample :
    ([0, 0, 0, 0] : List Nat).length < 0x70 ∧
    PrefetchHeader.from_reader [0, 0, 0, 0] 0 = .error .unknownVersion ∧
    PError.unknownVersion ≠ PError.truncated := by
  exact ⟨by decide, by decide, by decide⟩

/-- Claim C7, amended: every buffer shorter than the 0x70 bytes needed to
reach the end of the three 4-byte fields at offset 0x64 makes the header
decode fail with some error — the truncation error whenever the shortage
is hit first (in particular for any buffer shorter than the 4 version
bytes), though an unrecognized version code or a bad signature in the
available prefix reports its own error kind instead — and a header is only
ever produced from a buffer of at least 0x70 bytes, so no read goes out of
bounds. -/
theorem claim_C7_amended :
    (∀ data : List Nat, data.length < 0x70 →
      ∃ e, PrefetchHeader.from_reader data 0 = .error e) ∧
    (∀ data : List Nat, data.length < 4 →
      PrefetchHeader.from_reader data 0 = .error .truncated) ∧
    (∀ (data : List Nat) (hd : PrefetchHeader) (p : Nat),
      PrefetchHeader.from_reader data 0 = .ok (hd, p) → 0x70 ≤ data.length) := by
  refine ⟨?_, ?_, ?_⟩
  · intro data hlen
    cases hres : PrefetchHeader.from_reader data 0 with
    | ok a =>
      obtain ⟨hd, p⟩ := a
      obtain ⟨-, -, hl⟩ := from_reader_ok_elim hres
      omega
    | error e => exact ⟨e, rfl⟩
  · intro data hlen
    unfold PrefetchHeader.from_reader readU32
    rw [readBytes_error_of_gt (by omega), err_bind, err_bind]
  · intro data hd p h
    exact (from_reader_ok_elim h).2.2

/-- Witness for C7 (amended): the empty buffer is truncated. -/
theorem claim_C7_witness : PrefetchHeader.from_reader [] 0 = .error .truncated :=
  claim_C7_amended.2.1 [] (by decide)

/-- Claim C8: an out-of-range Windows epoch value makes the timestamp
conversion fail explicitly with the invalid-timestamp error; a successful
conversion keeps the raw tick value (no clamping); the volume decoder's
creation timestamp is the converted raw value at record offset 8 and an
out-of-range value there (or at the XP execution-timestamp offset) aborts
the surrounding decoder with the invalid-timestamp error; and every
successfully decoded record holds only in-range instants. -/
theorem claim_C8_invalid_timestamp_fails :
    (∀ t, windowsTicksMax < t →
      WindowsTimestamp.to_datetime t = .error .invalidTimestamp) ∧
    (∀ t d, WindowsTimestamp.to_datetime t = .ok d → d.ticks = t) ∧
    (∀ (data : List Nat) (pos : Nat) (vi : VolumeInformation) (p : Nat),
      VolumeInformation.from_reader data pos = .ok (vi, p) →
      WindowsTimestamp.to_datetime (u64At data (pos + 8)) = .ok vi.volume_creation_date) ∧
    (∀ (data : List Nat) (pos : Nat), pos + 16 ≤ data.length →
      windowsTicksMax < u64At data (pos + 8) →
      VolumeInformation.from_reader data pos = .error .invalidTimestamp) ∧
    (∀ (data : List Nat) (pos : Nat), 0x80 ≤ data.length →
      windowsTicksMax < u64At data 0x78 →
      FileInformation.xp_from_reader data pos = .error .invalidTimestamp) ∧
    (∀ (data : List Nat) (pf : Prefetch), Prefetch.from_file data = .ok pf →
      pf.file_information.last_execution_time.ticks ≤ windowsTicksMax ∧
      pf.volume_information.volume_creation_date.ticks ≤ windowsTicksMax) := by
  refine ⟨fun t ht => to_datetime_error_of_gt ht,
          fun t d h => (to_datetime_ok_elim h).1,
          fun data pos vi p h => (volume_info_ok_elim h).1,
          fun data pos h1 h2 => volume_info_invalid_ts h1 h2,
          fun data pos h1 h2 => xp_invalid_ts h1 h2,
          fun data pf h => ?_⟩
  obtain ⟨p1, p2, p3, p4, p5, -, h2, h3, -, -⟩ := from_file_ok_elim h
  refine ⟨for_version_ok_ticks h2, ?_⟩
  obtain ⟨hc, -, -, -, -, -⟩ := volume_info_ok_elim h3
  obtain ⟨ht, hb⟩ := to_datetime_ok_elim hc
  omega

/-- Witness for C8: the first out-of-range tick value. -/
theorem claim_C8_witness :
    WindowsTimestamp.to_datetime (windowsTicksMax + 1) = .error .invalidTimestamp :=
  claim_C8_invalid_timestamp_fails.1 (windowsTicksMax + 1) (Nat.lt_succ_self windowsTicksMax)

/-- Claim C9: once the version code is readable and recognized and the 4
signature bytes are readable, header decoding fails with the
malformed-signature error exactly when those bytes are not valid UTF-8; no
comparison against an expected constant is made — in particular a buffer
whose signature is "ABCD" rather than "SCCA" decodes to a full header. -/
theorem claim_C9_signature_utf8_only :
    (∀ (data : List Nat) (pos c p1 : Nat) (v : PrefetchVersion) (sig : List Nat) (p2 : Nat),
      readU32 data pos = .ok (c, p1) → versionOfCode c = some v →
      readBytes data p1 4 = .ok (sig, p2) →
      (PrefetchHeader.from_reader data pos = .error .malformedSignature ↔
        decodeUtf8 sig = none)) ∧
    PrefetchHeader.from_reader pfBufSigABCD 0 = .ok (hdrABCD, 0x70) := by
  constructor
  · intro data pos c p1 v sig p2 h1 hv h2
    constructor
    · intro hmal
      cases hd : decodeUtf8 sig with
      | none => rfl
      | some cs =>
        exfalso
        unfold PrefetchHeader.from_reader at hmal
        rw [h1] at hmal
        simp only [ok_bind] at hmal
        rw [hv] at hmal
        dsimp only at hmal
        rw [h2] at hmal
        simp only [ok_bind] at hmal
        rw [hd] at hmal
        dsimp only at hmal
        cases h4 : readU32 data (p2 + 4) with
        | error e2 =>
          rw [h4, err_bind] at hmal
          injection hmal with h'
          exact absurd (h'.symm.trans (readU32_error_elim h4)) (by decide)
        | ok a4 =>
          obtain ⟨fs, p4⟩ := a4
          rw [h4] at hmal
          simp only [ok_bind] at hmal
          cases h5 : read_utf16_exact data p4 60 with
          | error e2 =>
            rw [h5, err_bind] at hmal
            injection hmal with h'
            rcases read_utf16_exact_error_elim h5 with h6 | h6 <;>
              exact absurd (h'.symm.trans h6) (by decide)
          | ok a5 =>
            obtain ⟨nm, p5⟩ := a5
            rw [h5] at hmal
            simp only [ok_bind] at hmal
            cases h6 : readU32 data p5 with
            | error e2 =>
              rw [h6, err_bind] at hmal
              injection hmal with h'
              exact absurd (h'.symm.trans (readU32_error_elim h6)) (by decide)
            | ok a6 =>
              obtain ⟨hsh, p6⟩ := a6
              rw [h6] at hmal
              simp only [ok_bind] at hmal
              cases h7 : readU32 data 0x64 with
              | error e2 =>
                rw [h7, err_bind] at hmal
                injection hmal with h'
                exact absurd (h'.symm.trans (readU32_error_elim h7)) (by decide)
              | ok a7 =>
                obtain ⟨ffpo, p7⟩ := a7
                rw [h7] at hmal
                simp only [ok_bind] at hmal
                cases h8 : readU32 data p7 with
                | error e2 =>
                  rw [h8, err_bind] at hmal
                  injection hmal with h'
                  exact absurd (h'.symm.trans (readU32_error_elim h8)) (by decide)
                | ok a8 =>
                  obtain ⟨ffps, p8⟩ := a8
                  rw [h8] at hmal
                  simp only [ok_bind] at hmal
                  cases h9 : readU32 data p8 with
                  | error e2 =>
                    rw [h9, err_bind] at hmal
                    injection hmal with h'
                    exact absurd (h'.symm.trans (readU32_error_elim h9)) (by decide)
                  | ok a9 =>
                    obtain ⟨vio, p9⟩ := a9
                    rw [h9] at hmal
                    simp only [ok_bind] at hmal
                    cases hmal
    · intro hd
      unfold PrefetchHeader.from_reader
      rw [h1]
      simp only [ok_bind]
      rw [hv]
      dsimp only
      rw [h2]
      simp only [ok_bind]
      rw [hd]
  · decide

/-- Witness for C9: invalid UTF-8 signature bytes 0xFF,0xFF,0xFF,0xFF. -/
theorem claim_C9_witness :
    PrefetchHeader.from_reader pfBufBadSig 0 = .error .malformedSignature :=
  (claim_C9_signature_utf8_only.1 pfBufBadSig 0 17 4 .WindowsXP [255, 255, 255, 255] 8
    (by decide) (by decide) (by decide)).mpr (by decide)

/-- Claim C10: every successful decode returns exactly
`folder_path_count` volume entries, in the order the length-prefixed
strings appear in the byte stream (the order `readVolumes` reads them,
starting at the 32-bit wrapped table position the assembler seeks to). -/
theorem claim_C10_volumes_count (data : List Nat) (pf : Prefetch)
    (h : Prefetch.from_file data = .ok pf) :
    pf.volumes.length = pf.volume_information.folder_path_count ∧
    ∃ s, readVolumes data
        ((pf.header.volume_information_offset +
          pf.volume_information.folder_path_offset) % 4294967296)
        pf.volume_information.folder_path_count = .ok (pf.volumes, s) := by
  obtain ⟨p1, p2, p3, p4, p5, -, -, -, -, h5⟩ := from_file_ok_elim h
  exact ⟨(readVolumes_ok_elim h5).1, p5, h5⟩

/-- Witness for C10: the crafted buffer (one entry, count 1). -/
theorem claim_C10_witness :
    pfExpected.volumes.length = pfExpected.volume_information.folder_path_count ∧
    ∃ s, readVolumes pfBuf
        ((pfExpected.header.volume_information_offset +
          pfExpected.volume_information.folder_path_offset) % 4294967296)
        pfExpected.volume_information.folder_path_count = .ok (pfExpected.volumes, s) :=
  claim_C10_volumes_count pfBuf pfExpected (by decide)
